import Mathlib

/-!
Verification development for the WireGuard configuration codec
(`src/wg_interface.rs`): the `[Interface]` section type `WgInterface`,
its constructors `new`, `from_raw_values`, `from_raw_key_values`, and its
serializer `to_string`.

The section type itself and its operations are translated directly from
`src/wg_interface.rs`.  The collaborating types that live outside that
file (the private-key codec `WgPrivateKey`, the network-address type
`IpNetwork`, the error type `WgConfError`, and the file splitter that
turns rendered text back into a raw field mapping) are modelled from the
specification, as indicated by their doc comments.
-/

/-! ### Decimal text primitives

Decimal rendering and parsing of natural numbers, used by the port field
(Rust renders `u16` with `Display` and parses it with `u16::from_str`)
and by the modelled IPv4 address codec.  All definitions are structural
so that concrete instances evaluate in the kernel. -/

/-- The decimal digit character for `n < 10`. -/
def digitChar (n : Nat) : Char := Char.ofNat (48 + n)

/-- The value of a decimal digit character, `none` for non-digits. -/
def digitVal (c : Char) : Option Nat :=
  if c.isDigit then some (c.toNat - 48) else none

/-- Accumulating decimal parser: consumes digit characters, failing on the
first non-digit. -/
def parseNatFrom (acc : Nat) : List Char → Option Nat
  | [] => some acc
  | c :: cs =>
    match digitVal c with
    | some d => parseNatFrom (acc * 10 + d) cs
    | none => none

/-- Decimal parser for a nonempty all-digit character list. -/
def parseNat (cs : List Char) : Option Nat :=
  if cs = [] then none else parseNatFrom 0 cs

/-- Fueled decimal rendering (most significant digit first).  The fuel is
always instantiated with `n + 1`, which suffices. -/
def renderNatGo : Nat → Nat → List Char
  | 0, _ => []
  | fuel + 1, n =>
    if n < 10 then [digitChar n]
    else renderNatGo fuel (n / 10) ++ [digitChar (n % 10)]

/-- Decimal rendering of a natural number, as produced by Rust `Display`
for unsigned integers: no sign, no leading zeros. -/
def renderNat (n : Nat) : List Char := renderNatGo (n + 1) n

/-- Decimal text of a natural number (models Rust `Display` for `u16`). -/
def natText (n : Nat) : String := String.mk (renderNat n)

/-- Drops a single leading plus sign, as Rust integer `FromStr` does for
unsigned types. -/
def stripPlus (cs : List Char) : List Char :=
  if cs.take 1 = ['+'] then cs.drop 1 else cs

/-- Models Rust `u16::from_str`: an optional leading plus sign followed by
one or more ASCII decimal digits whose value fits in 16 bits.  Whitespace
is never accepted; leading zeros are. -/
def parseU16 (s : String) : Option Nat :=
  match parseNat (stripPlus s.data) with
  | some n => if n < 65536 then some n else none
  | none => none

/-! ### Private-key codec

Modelled from the spec: `WgPrivateKey` lives outside `src/`; the spec
describes it as a typed wrapper around a fixed-shape string (the base64
encoding of 32 bytes, hence 44 base64 characters), whose parser
distinguishes a wrong length from an invalid encoding, and whose
canonical text is the stored string itself. -/

/-- Base64 alphabet membership (including the padding character). -/
def isBase64Char (c : Char) : Bool :=
  (decide ('A' ≤ c) && decide (c ≤ 'Z')) ||
  (decide ('a' ≤ c) && decide (c ≤ 'z')) ||
  (decide ('0' ≤ c) && decide (c ≤ '9')) ||
  c == '+' || c == '/' || c == '='

/-- Modelled from the spec: validity of a raw private-key string — the
base64 text of 32 bytes is 44 characters drawn from the base64 alphabet. -/
def isValidKeyRaw (s : String) : Bool :=
  s.length == 44 && s.data.all isBase64Char

/-- Modelled from the spec: the typed private-key wrapper; invalid keys
cannot be constructed. -/
abbrev WgPrivateKey := { s : String // isValidKeyRaw s = true }

/-- Modelled from the spec: the error type surfaced by this core.
`ValidationFailed` carries a human-readable reason; the two key variants
model the key codec's own error taxonomy (wrong length / bad encoding),
which is propagated unchanged by `from_raw_values`. -/
inductive WgConfError where
  | ValidationFailed (reason : String)
  | KeyWrongLength
  | KeyInvalidEncoding
deriving DecidableEq

/-- Modelled from the spec: the key codec's parser
(`parse : string -> Result<Key, KeyError>`). -/
def parseKey (s : String) : Except WgConfError WgPrivateKey :=
  if hl : s.length = 44 then
    if hc : s.data.all isBase64Char = true then
      .ok ⟨s, by simp [isValidKeyRaw, hl, hc]⟩
    else .error .KeyInvalidEncoding
  else .error .KeyWrongLength

/-- Modelled from the spec: the key codec's canonical text
(`toCanonicalText : Key -> string`). -/
def keyText (k : WgPrivateKey) : String := k.val

/-! ### Network-address codec

Modelled from the spec: `IpNetwork` is an external collaborator.  The
spec describes it as "a network address with prefix length (address +
mask, e.g. `10.0.0.1/8`)" with a parser "accepting `address/prefixLength`
syntax" and a canonical text form; all its examples are IPv4. -/

/-- Splits a character list on every occurrence of `sep`; the separator
is not kept.  `splitOnChar sep []` is `[[]]`, matching the usual
string-splitting convention. -/
def splitOnChar (sep : Char) : List Char → List (List Char)
  | [] => [[]]
  | c :: cs =>
    if c = sep then [] :: splitOnChar sep cs
    else
      match splitOnChar sep cs with
      | [] => [[c]]
      | h :: t => (c :: h) :: t

/-- Modelled from the spec: an IPv4 network — four octets plus a prefix
length of at most 32. -/
structure IpNetwork where
  o1 : Fin 256
  o2 : Fin 256
  o3 : Fin 256
  o4 : Fin 256
  prefixLen : Fin 33
deriving DecidableEq

/-- Parses one decimal octet (value at most 255). -/
def parseOctet (cs : List Char) : Option (Fin 256) :=
  match parseNat cs with
  | some n => if h : n < 256 then some ⟨n, h⟩ else none
  | none => none

/-- Parses a decimal prefix length (value at most 32). -/
def parseMask (cs : List Char) : Option (Fin 33) :=
  match parseNat cs with
  | some n => if h : n < 33 then some ⟨n, h⟩ else none
  | none => none

/-- Modelled from the spec: the network-address parser, accepting exactly
the `a.b.c.d/prefixLength` syntax. -/
def parseAddrChars (cs : List Char) : Option IpNetwork :=
  match splitOnChar '/' cs with
  | [ipPart, maskPart] =>
    match splitOnChar '.' ipPart with
    | [c1, c2, c3, c4] =>
      match parseOctet c1, parseOctet c2, parseOctet c3, parseOctet c4,
            parseMask maskPart with
      | some a, some b, some c, some d, some p => some ⟨a, b, c, d, p⟩
      | _, _, _, _, _ => none
    | _ => none
  | _ => none

/-- String-level entry point of the modelled address parser. -/
def parseAddr (s : String) : Option IpNetwork := parseAddrChars s.data

/-- The `a.b.c.d` part of a network's canonical text. -/
def ipPartChars (n : IpNetwork) : List Char :=
  renderNat n.o1.val ++ '.' :: renderNat n.o2.val ++ '.' :: renderNat n.o3.val ++
    '.' :: renderNat n.o4.val

/-- Canonical text of a network, as a character list: `a.b.c.d/p` in
decimal. -/
def ipChars (n : IpNetwork) : List Char :=
  ipPartChars n ++ '/' :: renderNat n.prefixLen.val

/-- Modelled from the spec: the network-address canonical text
(`toCanonicalText : Network -> string`). -/
def ipText (n : IpNetwork) : String := String.mk (ipChars n)

/-! ### The `[Interface]` section type, from `src/wg_interface.rs` -/

/-- Interface tag (`TAG` in `wg_interface.rs`). -/
def TAG : String := "[Interface]"

/-- Field name constant `PRIVATE_KEY`. -/
def PRIVATE_KEY : String := "PrivateKey"

/-- Field name constant `ADDRESS`. -/
def ADDRESS : String := "Address"

/-- Field name constant `LISTEN_PORT`. -/
def LISTEN_PORT : String := "ListenPort"

/-- Field name constant `POST_UP`. -/
def POST_UP : String := "PostUp"

/-- Field name constant `POST_DOWN`. -/
def POST_DOWN : String := "PostDown"

/-- The WG `[Interface]` section (struct `WgInterface`).  `listen_port`
is a `u16` in Rust; it is modelled as a `Nat`, with the bound
`listen_port < 2 ^ 16` supplied as a hypothesis where it matters. -/
structure WgInterface where
  private_key : WgPrivateKey
  address : IpNetwork
  listen_port : Nat
  post_up : String
  post_down : String
deriving DecidableEq

/-- The reason string of the zero-port validation error:
`port can` + apostrophe + `t be 0`. -/
def portZeroMsg : String :=
  "port can" ++ String.mk [Char.ofNat 39] ++ "t be 0"

/-- The reason string of the malformed-address validation error. -/
def addrMsg : String := "address must be address with mask (e.g. 10.0.0.1/8)"

/-- The reason string of the unparsable-port validation error. -/
def portRawMsg : String := "invalid port raw value"

/-- `impl ToString for WgInterface` — the `format!` call rendering the
section: tag line, five `Key = Value` lines, trailing newline. -/
def WgInterface.to_string (s : WgInterface) : String :=
  TAG ++ "\n" ++
  PRIVATE_KEY ++ " = " ++ keyText s.private_key ++ "\n" ++
  ADDRESS ++ " = " ++ ipText s.address ++ "\n" ++
  LISTEN_PORT ++ " = " ++ natText s.listen_port ++ "\n" ++
  POST_UP ++ " = " ++ s.post_up ++ "\n" ++
  POST_DOWN ++ " = " ++ s.post_down ++ "\n"

/-- `WgInterface::new`: rejects a zero port, otherwise stores the typed
arguments verbatim. -/
def WgInterface.new (private_key : WgPrivateKey) (address : IpNetwork)
    (listen_port : Nat) (post_up post_down : String) :
    Except WgConfError WgInterface :=
  if listen_port = 0 then .error (.ValidationFailed portZeroMsg)
  else .ok ⟨private_key, address, listen_port, post_up, post_down⟩

/-- `WgInterface::from_raw_values`: parses the key (propagating the key
parser error unchanged), the address (replacing any parser error with the
fixed `addrMsg` reason), and the port (failing with `portRawMsg`), then
rejects a zero port. -/
def from_raw_values (private_key address listen_port post_up post_down : String) :
    Except WgConfError WgInterface :=
  match parseKey private_key with
  | .error e => .error e
  | .ok key =>
    match parseAddr address with
    | none => .error (.ValidationFailed addrMsg)
    | some addr =>
      match parseU16 listen_port with
      | none => .error (.ValidationFailed portRawMsg)
      | some port =>
        if port = 0 then .error (.ValidationFailed portZeroMsg)
        else .ok ⟨key, addr, port, post_up, post_down⟩

/-- The five mutable raw-field accumulators of
`WgInterface::from_raw_key_values`, all initialized to the empty
string. -/
structure RawFields where
  private_key : String
  address : String
  listen_port : String
  post_up : String
  post_down : String

/-- One iteration of the `for (k, v) in raw_key_values` loop: the five
guarded match arms, with unrecognized keys left as a no-op. -/
def applyField (acc : RawFields) (kv : String × String) : RawFields :=
  if kv.1 = PRIVATE_KEY then { acc with private_key := kv.2 }
  else if kv.1 = ADDRESS then { acc with address := kv.2 }
  else if kv.1 = LISTEN_PORT then { acc with listen_port := kv.2 }
  else if kv.1 = POST_UP then { acc with post_up := kv.2 }
  else if kv.1 = POST_DOWN then { acc with post_down := kv.2 }
  else acc

/-- The final call of `from_raw_key_values`: feeds the five accumulated
raw strings to `from_raw_values`. -/
def finishRawFields (f : RawFields) : Except WgConfError WgInterface :=
  from_raw_values f.private_key f.address f.listen_port f.post_up f.post_down

/-- `WgInterface::from_raw_key_values`.  The Rust argument is a
`HashMap<String, String>`; it is modelled as an association list folded
in order, which subsumes every iteration order of the map. -/
def from_raw_key_values (raw : List (String × String)) :
    Except WgConfError WgInterface :=
  finishRawFields (raw.foldl applyField ⟨"", "", "", "", ""⟩)

/-! ### The line splitter

Modelled from the spec: the file splitter that turns a rendered section
back into a raw field mapping is an external collaborator.  Following the
format of spec section 6 and the round-trip property, it splits the text
into lines and each line at its first ` = ` separator into a key and a
verbatim value; lines without a separator (the tag line, the trailing
blank line) contribute no field. -/

/-- Splits a line at the first occurrence of the three-character
separator (space, equals sign, space) into key and value; `none` when the
line has no separator. -/
def splitKV : List Char → Option (List Char × List Char)
  | [] => none
  | c :: cs =>
    if c = ' ' ∧ cs.take 2 = ['=', ' '] then some ([], cs.drop 2)
    else
      match splitKV cs with
      | some p => some (c :: p.1, p.2)
      | none => none

/-- Modelled from the spec: the external splitter producing the raw field
mapping from a section's text. -/
def extractFields (text : String) : List (String × String) :=
  (splitOnChar '\n' text.data).filterMap (fun line =>
    match splitKV line with
    | some kv => some (String.mk kv.1, String.mk kv.2)
    | none => none)

/-- The lines of a string, split on the newline character. -/
def strLines (t : String) : List String :=
  (splitOnChar '\n' t.data).map String.mk

/-- The character list of one rendered field line: name, the three
separator characters, value. -/
def fieldLine (name value : String) : List Char :=
  name.data ++ ' ' :: '=' :: ' ' :: value.data

/-! ### Concrete sample values used by witnesses and counterexamples -/

/-- A sample raw private key: 44 base64 characters. -/
def K0s : String := "abcdefghijklmnopqrstuvwxyzABCDEFGHIJKLMNOP=="

/-- The sample key as a typed value. -/
def K0 : WgPrivateKey := ⟨K0s, by decide⟩

/-- The sample network `10.0.0.1/24`. -/
def A0 : IpNetwork := ⟨10, 0, 0, 1, 24⟩

/-- A validly constructed section whose `post_up` command contains a
newline character. -/
def S0 : WgInterface := ⟨K0, A0, 51820, "a\nb", "down"⟩

/-- The section actually recovered when the rendering of `S0` is split
into field lines and re-parsed: the text after the newline is lost. -/
def S1 : WgInterface := ⟨K0, A0, 51820, "a", "down"⟩

/-- A validly constructed section with newline-free command strings. -/
def S2 : WgInterface := ⟨K0, A0, 51820, "iptables -A", "iptables -D"⟩

/-! ### Claims C3, C4, C5, C8, C9, C10 -/

/-- Claim C9: the typed constructor performs no check other than the
nonzero-port check; for any nonzero port it succeeds, and the resulting
section's accessors return exactly the argument values — the command
strings are stored verbatim. -/
theorem claim_C9_typed_path (key : WgPrivateKey) (addr : IpNetwork) (p : Nat)
    (up down : String) (hp : p ≠ 0) :
    WgInterface.new key addr p up down = .ok ⟨key, addr, p, up, down⟩ ∧
    (WgInterface.mk key addr p up down).private_key = key ∧
    (WgInterface.mk key addr p up down).address = addr ∧
    (WgInterface.mk key addr p up down).listen_port = p ∧
    (WgInterface.mk key addr p up down).post_up = up ∧
    (WgInterface.mk key addr p up down).post_down = down := by
  refine ⟨?_, rfl, rfl, rfl, rfl, rfl⟩
  simp [WgInterface.new, hp]

/-- Witness for C9 at a concrete input whose command string contains both
an equals sign and a newline. -/
theorem claim_C9_witness :
    WgInterface.new K0 A0 51820 "a=b\nc" "" =
      .ok ⟨K0, A0, 51820, "a=b\nc", ""⟩ ∧
    (WgInterface.mk K0 A0 51820 "a=b\nc" "").private_key = K0 ∧
    (WgInterface.mk K0 A0 51820 "a=b\nc" "").address = A0 ∧
    (WgInterface.mk K0 A0 51820 "a=b\nc" "").listen_port = 51820 ∧
    (WgInterface.mk K0 A0 51820 "a=b\nc" "").post_up = "a=b\nc" ∧
    (WgInterface.mk K0 A0 51820 "a=b\nc" "").post_down = "" :=
  claim_C9_typed_path K0 A0 51820 "a=b\nc" "" (by decide)

/-- Claim C3: with a parsable key and address, the raw-value constructor
rejects the port text `0`, and the typed constructor rejects the port
number `0`, both with the zero-port `ValidationFailed` reason. -/
theorem claim_C3_zero_port (rawk rawa up down : String) (key : WgPrivateKey)
    (addr : IpNetwork) (hk : parseKey rawk = .ok key)
    (ha : parseAddr rawa = some addr) :
    from_raw_values rawk rawa "0" up down =
      .error (.ValidationFailed portZeroMsg) ∧
    WgInterface.new key addr 0 up down =
      .error (.ValidationFailed portZeroMsg) := by
  constructor
  · simp [from_raw_values, hk, ha, show parseU16 "0" = some 0 from rfl]
  · simp [WgInterface.new]

/-- Witness for C3 at the sample key and address. -/
theorem claim_C3_witness :
    from_raw_values K0s "10.0.0.1/24" "0" "u" "d" =
      .error (.ValidationFailed portZeroMsg) ∧
    WgInterface.new K0 A0 0 "u" "d" =
      .error (.ValidationFailed portZeroMsg) :=
  claim_C3_zero_port K0s "10.0.0.1/24" "u" "d" K0 A0 (by rfl) (by rfl)

/-- Claim C4: whenever the raw key parses and the address string does not
parse as a CIDR network, the raw-value constructor fails with the fixed
`addrMsg` reason, independent of the address parser's own error and of
the remaining arguments. -/
theorem claim_C4_address_error (rawk rawa p up down : String)
    (key : WgPrivateKey) (hk : parseKey rawk = .ok key)
    (ha : parseAddr rawa = none) :
    from_raw_values rawk rawa p up down = .error (.ValidationFailed addrMsg) := by
  simp [from_raw_values, hk, ha]

/-- Witness for C4 at an address without a prefix length and at a
syntactically invalid one. -/
theorem claim_C4_witness :
    from_raw_values K0s "10.0.0.1" "51820" "u" "d" =
      .error (.ValidationFailed addrMsg) ∧
    from_raw_values K0s "not-an-ip" "51820" "u" "d" =
      .error (.ValidationFailed addrMsg) :=
  ⟨claim_C4_address_error K0s "10.0.0.1" "51820" "u" "d" K0 (by rfl) (by rfl),
   claim_C4_address_error K0s "not-an-ip" "51820" "u" "d" K0 (by rfl) (by rfl)⟩

/-- Claim C5: a key-parsing failure is propagated by the raw-value
constructor as exactly the key parser's own error value, unchanged, and
that error is never a `ValidationFailed` wrapper. -/
theorem claim_C5_key_error_propagation (rawk a p up down : String)
    (e : WgConfError) (hk : parseKey rawk = .error e) :
    from_raw_values rawk a p up down = .error e ∧
    ∀ msg, e ≠ .ValidationFailed msg := by
  constructor
  · simp [from_raw_values, hk]
  · intro msg hmsg
    rw [hmsg] at hk
    unfold parseKey at hk
    split at hk
    · split at hk
      · exact absurd hk (by simp)
      · simp at hk
    · simp at hk

/-- Witness for C5 at a raw key of the wrong length. -/
theorem claim_C5_witness :
    from_raw_values "short" "10.0.0.1/24" "51820" "u" "d" =
      .error .KeyWrongLength ∧
    ∀ msg, WgConfError.KeyWrongLength ≠ .ValidationFailed msg :=
  claim_C5_key_error_propagation "short" "10.0.0.1/24" "51820" "u" "d"
    .KeyWrongLength (by rfl)

/-- Claim C8: the raw-value constructor validates in the fixed order key,
address, port: a key failure is reported regardless of the other fields,
an address failure is reported whenever the key parses, and a port-parse
failure is reported whenever key and address parse. -/
theorem claim_C8_validation_order (k a p u d : String) :
    (∀ e, parseKey k = .error e → from_raw_values k a p u d = .error e) ∧
    (∀ key, parseKey k = .ok key → parseAddr a = none →
      from_raw_values k a p u d = .error (.ValidationFailed addrMsg)) ∧
    (∀ key addr, parseKey k = .ok key → parseAddr a = some addr →
      parseU16 p = none →
      from_raw_values k a p u d = .error (.ValidationFailed portRawMsg)) := by
  refine ⟨?_, ?_, ?_⟩ <;> intros <;> simp [from_raw_values, *]

/-- Witness for C8: with both the key and the address invalid the key
error wins; with only the address invalid the address error is reported;
with only the port invalid the port error is reported. -/
theorem claim_C8_witness :
    from_raw_values "bad" "not-an-ip" "x" "u" "d" = .error .KeyWrongLength ∧
    from_raw_values K0s "not-an-ip" "x" "u" "d" =
      .error (.ValidationFailed addrMsg) ∧
    from_raw_values K0s "10.0.0.1/24" "x" "u" "d" =
      .error (.ValidationFailed portRawMsg) :=
  ⟨(claim_C8_validation_order "bad" "not-an-ip" "x" "u" "d").1
      .KeyWrongLength (by rfl),
   (claim_C8_validation_order K0s "not-an-ip" "x" "u" "d").2.1 K0
      (by rfl) (by rfl),
   (claim_C8_validation_order K0s "10.0.0.1/24" "x" "u" "d").2.2 K0 A0
      (by rfl) (by rfl) (by rfl)⟩

/-- Claim C10: the raw port text is passed to 16-bit parsing untrimmed
and unnormalized — a leading plus sign and leading zeros are accepted and
both denote port 51820, while a leading space fails with the
`invalid port raw value` reason. -/
theorem claim_C10_port_text (u d : String) :
    from_raw_values K0s "10.0.0.1/24" "+51820" u d =
      .ok ⟨K0, A0, 51820, u, d⟩ ∧
    from_raw_values K0s "10.0.0.1/24" "051820" u d =
      .ok ⟨K0, A0, 51820, u, d⟩ ∧
    from_raw_values K0s "10.0.0.1/24" " 51820" u d =
      .error (.ValidationFailed portRawMsg) := by
  refine ⟨?_, ?_, ?_⟩ <;> rfl

/-! ### Claims C6 and C7: the raw field mapping -/

/-- An entry whose key is none of the five recognized field names leaves
the loop accumulator unchanged. -/
theorem applyField_unrecognized (acc : RawFields) (kv : String × String)
    (h1 : kv.1 ≠ PRIVATE_KEY) (h2 : kv.1 ≠ ADDRESS) (h3 : kv.1 ≠ LISTEN_PORT)
    (h4 : kv.1 ≠ POST_UP) (h5 : kv.1 ≠ POST_DOWN) :
    applyField acc kv = acc := by
  simp [applyField, h1, h2, h3, h4, h5]

/-- An entry whose key is not `PrivateKey` does not touch the key slot. -/
theorem applyField_keeps_private_key (acc : RawFields) (kv : String × String)
    (h : kv.1 ≠ PRIVATE_KEY) :
    (applyField acc kv).private_key = acc.private_key := by
  unfold applyField
  rw [if_neg h]
  repeat' split
  all_goals rfl

/-- An entry whose key is not `Address` does not touch the address slot. -/
theorem applyField_keeps_address (acc : RawFields) (kv : String × String)
    (h : kv.1 ≠ ADDRESS) :
    (applyField acc kv).address = acc.address := by
  unfold applyField
  repeat' split
  all_goals rfl

/-- An entry whose key is not `ListenPort` does not touch the port slot. -/
theorem applyField_keeps_listen_port (acc : RawFields) (kv : String × String)
    (h : kv.1 ≠ LISTEN_PORT) :
    (applyField acc kv).listen_port = acc.listen_port := by
  unfold applyField
  repeat' split
  all_goals rfl

/-- An entry whose key is not `PostUp` does not touch the post-up slot. -/
theorem applyField_keeps_post_up (acc : RawFields) (kv : String × String)
    (h : kv.1 ≠ POST_UP) :
    (applyField acc kv).post_up = acc.post_up := by
  unfold applyField
  repeat' split
  all_goals rfl

/-- An entry whose key is not `PostDown` does not touch the post-down
slot. -/
theorem applyField_keeps_post_down (acc : RawFields) (kv : String × String)
    (h : kv.1 ≠ POST_DOWN) :
    (applyField acc kv).post_down = acc.post_down := by
  unfold applyField
  repeat' split
  all_goals rfl

/-- If no entry is keyed `PrivateKey`, the fold leaves the key slot at its
initial value. -/
theorem foldl_keeps_private_key :
    ∀ (xs : List (String × String)) (acc : RawFields),
      (∀ kv ∈ xs, kv.1 ≠ PRIVATE_KEY) →
      (xs.foldl applyField acc).private_key = acc.private_key := by
  intro xs
  induction xs with
  | nil => intro acc h; rfl
  | cons kv xs ih =>
    intro acc h
    rw [List.foldl_cons, ih _ (fun x hx => h x (List.mem_cons_of_mem _ hx)),
        applyField_keeps_private_key _ _ (h kv (List.mem_cons_self _ _))]

/-- If no entry is keyed `Address`, the fold leaves the address slot at
its initial value. -/
theorem foldl_keeps_address :
    ∀ (xs : List (String × String)) (acc : RawFields),
      (∀ kv ∈ xs, kv.1 ≠ ADDRESS) →
      (xs.foldl applyField acc).address = acc.address := by
  intro xs
  induction xs with
  | nil => intro acc h; rfl
  | cons kv xs ih =>
    intro acc h
    rw [List.foldl_cons, ih _ (fun x hx => h x (List.mem_cons_of_mem _ hx)),
        applyField_keeps_address _ _ (h kv (List.mem_cons_self _ _))]

/-- If no entry is keyed `ListenPort`, the fold leaves the port slot at
its initial value. -/
theorem foldl_keeps_listen_port :
    ∀ (xs : List (String × String)) (acc : RawFields),
      (∀ kv ∈ xs, kv.1 ≠ LISTEN_PORT) →
      (xs.foldl applyField acc).listen_port = acc.listen_port := by
  intro xs
  induction xs with
  | nil => intro acc h; rfl
  | cons kv xs ih =>
    intro acc h
    rw [List.foldl_cons, ih _ (fun x hx => h x (List.mem_cons_of_mem _ hx)),
        applyField_keeps_listen_port _ _ (h kv (List.mem_cons_self _ _))]

/-- If no entry is keyed `PostUp`, the fold leaves the post-up slot at its
initial value. -/
theorem foldl_keeps_post_up :
    ∀ (xs : List (String × String)) (acc : RawFields),
      (∀ kv ∈ xs, kv.1 ≠ POST_UP) →
      (xs.foldl applyField acc).post_up = acc.post_up := by
  intro xs
  induction xs with
  | nil => intro acc h; rfl
  | cons kv xs ih =>
    intro acc h
    rw [List.foldl_cons, ih _ (fun x hx => h x (List.mem_cons_of_mem _ hx)),
        applyField_keeps_post_up _ _ (h kv (List.mem_cons_self _ _))]

/-- If no entry is keyed `PostDown`, the fold leaves the post-down slot at
its initial value. -/
theorem foldl_keeps_post_down :
    ∀ (xs : List (String × String)) (acc : RawFields),
      (∀ kv ∈ xs, kv.1 ≠ POST_DOWN) →
      (xs.foldl applyField acc).post_down = acc.post_down := by
  intro xs
  induction xs with
  | nil => intro acc h; rfl
  | cons kv xs ih =>
    intro acc h
    rw [List.foldl_cons, ih _ (fun x hx => h x (List.mem_cons_of_mem _ hx)),
        applyField_keeps_post_down _ _ (h kv (List.mem_cons_self _ _))]

/-- Claim C6: adding an entry with an unrecognized key anywhere in the
input mapping does not change the result of `from_raw_key_values`. -/
theorem claim_C6_unknown_field (xs ys : List (String × String)) (k v : String)
    (h : k ∉ [PRIVATE_KEY, ADDRESS, LISTEN_PORT, POST_UP, POST_DOWN]) :
    from_raw_key_values (xs ++ (k, v) :: ys) = from_raw_key_values (xs ++ ys) := by
  simp only [List.mem_cons, List.not_mem_nil, or_false, not_or] at h
  obtain ⟨h1, h2, h3, h4, h5⟩ := h
  unfold from_raw_key_values
  rw [List.foldl_append, List.foldl_append, List.foldl_cons,
      applyField_unrecognized _ _ h1 h2 h3 h4 h5]

/-- Witness for C6: inserting `MTU -> 1420` between otherwise-valid
fields leaves the result unchanged, and that result is a success. -/
theorem claim_C6_witness :
    from_raw_key_values
        ([(PRIVATE_KEY, K0s), (ADDRESS, "10.0.0.1/24")] ++ ("MTU", "1420") ::
          [(LISTEN_PORT, "51820"), (POST_UP, "u"), (POST_DOWN, "d")]) =
      from_raw_key_values
        ([(PRIVATE_KEY, K0s), (ADDRESS, "10.0.0.1/24")] ++
          [(LISTEN_PORT, "51820"), (POST_UP, "u"), (POST_DOWN, "d")]) ∧
    from_raw_key_values
        ([(PRIVATE_KEY, K0s), (ADDRESS, "10.0.0.1/24")] ++ ("MTU", "1420") ::
          [(LISTEN_PORT, "51820"), (POST_UP, "u"), (POST_DOWN, "d")]) =
      .ok ⟨K0, A0, 51820, "u", "d"⟩ :=
  ⟨claim_C6_unknown_field _ _ "MTU" "1420" (by decide), by rfl⟩

/-- Claim C7: omitting a recognized field name from the mapping is
equivalent to binding it to the empty string, and a mapping without
`ListenPort` (other fields valid) fails with the invalid-port reason,
since the empty string does not parse as an integer. -/
theorem claim_C7_missing_field (xs ys : List (String × String)) (name : String)
    (hrec : name ∈ [PRIVATE_KEY, ADDRESS, LISTEN_PORT, POST_UP, POST_DOWN])
    (habs : ∀ kv ∈ xs ++ ys, kv.1 ≠ name) :
    from_raw_key_values (xs ++ (name, "") :: ys) =
      from_raw_key_values (xs ++ ys) ∧
    from_raw_key_values
        [(PRIVATE_KEY, K0s), (ADDRESS, "10.0.0.1/24"), (POST_UP, "up"),
          (POST_DOWN, "down")] =
      .error (.ValidationFailed portRawMsg) := by
  refine ⟨?_, by rfl⟩
  have hxs : ∀ kv ∈ xs, kv.1 ≠ name :=
    fun kv hkv => habs kv (List.mem_append_left _ hkv)
  unfold from_raw_key_values
  rw [List.foldl_append, List.foldl_append, List.foldl_cons]
  suffices hs : applyField (xs.foldl applyField ⟨"", "", "", "", ""⟩) (name, "") =
      xs.foldl applyField ⟨"", "", "", "", ""⟩ by rw [hs]
  simp only [List.mem_cons, List.not_mem_nil, or_false] at hrec
  generalize hG : xs.foldl applyField (⟨"", "", "", "", ""⟩ : RawFields) = A
  rcases hrec with h | h | h | h | h <;> subst h
  · have hA : A.private_key = "" := by
      rw [← hG]; exact foldl_keeps_private_key xs _ hxs
    obtain ⟨p, q, r, s, t⟩ := A
    dsimp at hA
    subst hA
    simp +decide [applyField]
  · have hA : A.address = "" := by
      rw [← hG]; exact foldl_keeps_address xs _ hxs
    obtain ⟨p, q, r, s, t⟩ := A
    dsimp at hA
    subst hA
    simp +decide [applyField]
  · have hA : A.listen_port = "" := by
      rw [← hG]; exact foldl_keeps_listen_port xs _ hxs
    obtain ⟨p, q, r, s, t⟩ := A
    dsimp at hA
    subst hA
    simp +decide [applyField]
  · have hA : A.post_up = "" := by
      rw [← hG]; exact foldl_keeps_post_up xs _ hxs
    obtain ⟨p, q, r, s, t⟩ := A
    dsimp at hA
    subst hA
    simp +decide [applyField]
  · have hA : A.post_down = "" := by
      rw [← hG]; exact foldl_keeps_post_down xs _ hxs
    obtain ⟨p, q, r, s, t⟩ := A
    dsimp at hA
    subst hA
    simp +decide [applyField]

/-- Witness for C7 at a mapping that omits `ListenPort`. -/
theorem claim_C7_witness :
    from_raw_key_values
        ([(PRIVATE_KEY, K0s), (ADDRESS, "10.0.0.1/24")] ++ (LISTEN_PORT, "") ::
          [(POST_UP, "up"), (POST_DOWN, "down")]) =
      from_raw_key_values
        ([(PRIVATE_KEY, K0s), (ADDRESS, "10.0.0.1/24")] ++
          [(POST_UP, "up"), (POST_DOWN, "down")]) ∧
    from_raw_key_values
        [(PRIVATE_KEY, K0s), (ADDRESS, "10.0.0.1/24"), (POST_UP, "up"),
          (POST_DOWN, "down")] =
      .error (.ValidationFailed portRawMsg) :=
  claim_C7_missing_field [(PRIVATE_KEY, K0s), (ADDRESS, "10.0.0.1/24")]
    [(POST_UP, "up"), (POST_DOWN, "down")] LISTEN_PORT (by decide) (by decide)

/-! ### Decimal round-trip lemmas -/

/-- Rendering then reading a single decimal digit gives it back. -/
theorem digitVal_digitChar (d : Nat) (hd : d < 10) :
    digitVal (digitChar d) = some d := by
  interval_cases d <;> decide

/-- Rendered digit characters are digits. -/
theorem isDigit_digitChar (d : Nat) (hd : d < 10) :
    (digitChar d).isDigit = true := by
  interval_cases d <;> decide

/-- Every character emitted by `renderNatGo` is a decimal digit. -/
theorem renderNatGo_digits :
    ∀ (fuel n : Nat), n < fuel → ∀ c ∈ renderNatGo fuel n, c.isDigit = true := by
  intro fuel
  induction fuel with
  | zero => intro n h; omega
  | succ fuel ih =>
    intro n h c hc
    unfold renderNatGo at hc
    split at hc
    · simp only [List.mem_singleton] at hc
      subst hc
      exact isDigit_digitChar n (by omega)
    · rw [List.mem_append] at hc
      rcases hc with hc | hc
      · exact ih (n / 10) (by omega) c hc
      · simp only [List.mem_singleton] at hc
        subst hc
        exact isDigit_digitChar _ (Nat.mod_lt _ (by omega))

/-- `renderNatGo` never returns the empty list when given enough fuel. -/
theorem renderNatGo_ne_nil :
    ∀ (fuel n : Nat), n < fuel → renderNatGo fuel n ≠ [] := by
  intro fuel
  cases fuel with
  | zero => intro n h; omega
  | succ fuel => intro n h; unfold renderNatGo; split <;> simp

/-- The accumulating parser distributes over list append. -/
theorem parseNatFrom_append (acc : Nat) (xs ys : List Char) :
    parseNatFrom acc (xs ++ ys) =
      match parseNatFrom acc xs with
      | some a => parseNatFrom a ys
      | none => none := by
  induction xs generalizing acc with
  | nil => rfl
  | cons c xs ih =>
    simp only [List.cons_append, parseNatFrom]
    cases hdv : digitVal c with
    | some d => simp only [hdv]; exact ih (acc * 10 + d)
    | none => simp only [hdv]

/-- Reading back `renderNatGo fuel n` appends `n` to the accumulator in
base ten. -/
theorem parseNatFrom_renderNatGo :
    ∀ (fuel n acc : Nat), n < fuel →
      parseNatFrom acc (renderNatGo fuel n) =
        some (acc * 10 ^ (renderNatGo fuel n).length + n) := by
  intro fuel
  induction fuel with
  | zero => intro n acc h; omega
  | succ fuel ih =>
    intro n acc h
    unfold renderNatGo
    split
    · simp only [parseNatFrom, digitVal_digitChar n (by omega),
        List.length_singleton, pow_one]
    · rw [parseNatFrom_append, ih (n / 10) acc (by omega)]
      dsimp only
      simp only [parseNatFrom, digitVal_digitChar (n % 10) (Nat.mod_lt _ (by omega)),
        List.length_append, List.length_singleton]
      congr 1
      rw [pow_succ]
      generalize (10 : Nat) ^ (renderNatGo fuel (n / 10)).length = B
      calc (acc * B + n / 10) * 10 + n % 10
          = acc * (B * 10) + (n / 10 * 10 + n % 10) := by ring
        _ = acc * (B * 10) + n := by congr 1; omega

/-- Decimal round trip: parsing the rendering of `n` yields `n`. -/
theorem parseNat_renderNat (n : Nat) : parseNat (renderNat n) = some n := by
  unfold parseNat renderNat
  rw [if_neg (renderNatGo_ne_nil _ _ (Nat.lt_succ_self n))]
  rw [parseNatFrom_renderNatGo _ _ _ (Nat.lt_succ_self n)]
  simp

/-- Every character of `renderNat n` is a decimal digit. -/
theorem renderNat_digits (n : Nat) : ∀ c ∈ renderNat n, c.isDigit = true :=
  renderNatGo_digits _ _ (Nat.lt_succ_self n)

/-- A non-digit character never occurs in a decimal rendering. -/
theorem not_mem_renderNat (c : Char) (hc : c.isDigit = false) (n : Nat) :
    c ∉ renderNat n := by
  intro hm
  have h := renderNat_digits n c hm
  rw [hc] at h
  exact absurd h (by decide)

/-- A decimal rendering starts with a digit, so the plus-stripping step of
`parseU16` leaves it unchanged. -/
theorem stripPlus_renderNat (n : Nat) : stripPlus (renderNat n) = renderNat n := by
  unfold stripPlus
  cases hr : renderNat n with
  | nil => rfl
  | cons c cs =>
    have hd : c.isDigit = true :=
      renderNat_digits n c (by rw [hr]; exact List.mem_cons_self _ _)
    have hne : c ≠ '+' := by
      intro e
      rw [e] at hd
      exact absurd hd (by decide)
    rw [if_neg]
    simp only [List.take_succ_cons, List.take_zero, List.cons.injEq]
    exact fun h => hne h.1

/-- Port round trip: the decimal text of a 16-bit value parses back to
that value. -/
theorem parseU16_natText (n : Nat) (h : n < 65536) :
    parseU16 (natText n) = some n := by
  unfold parseU16 natText
  rw [show (String.mk (renderNat n)).data = renderNat n from rfl]
  rw [stripPlus_renderNat, parseNat_renderNat]
  simp [h]

/-! ### Splitting lemmas -/

/-- A list free of the separator is returned whole. -/
theorem splitOnChar_no_sep (sep : Char) :
    ∀ (xs : List Char), sep ∉ xs → splitOnChar sep xs = [xs] := by
  intro xs
  induction xs with
  | nil => intro h; rfl
  | cons c cs ih =>
    intro h
    have hc : c ≠ sep := by
      intro e
      apply h
      rw [e]
      exact List.mem_cons_self _ _
    unfold splitOnChar
    rw [if_neg hc, ih (fun hm => h (List.mem_cons_of_mem _ hm))]

/-- Splitting at the first separator occurrence peels off the prefix. -/
theorem splitOnChar_append (sep : Char) :
    ∀ (xs ys : List Char), sep ∉ xs →
      splitOnChar sep (xs ++ sep :: ys) = xs :: splitOnChar sep ys := by
  intro xs
  induction xs with
  | nil =>
    intro ys h
    simp only [List.nil_append]
    rw [splitOnChar, if_pos rfl]
  | cons c cs ih =>
    intro ys h
    have hc : c ≠ sep := by
      intro e
      apply h
      rw [e]
      exact List.mem_cons_self _ _
    simp only [List.cons_append]
    rw [splitOnChar, if_neg hc, ih ys (fun hm => h (List.mem_cons_of_mem _ hm))]

/-- A line that begins with the separator splits into an empty key and
the rest. -/
theorem splitKV_sep (rest : List Char) :
    splitKV (' ' :: '=' :: ' ' :: rest) = some ([], rest) := by
  unfold splitKV
  rw [if_pos ⟨rfl, rfl⟩]
  rfl

/-- Splitting a rendered field line recovers the name and the verbatim
value, provided the name contains no space. -/
theorem splitKV_name :
    ∀ (name : List Char), ' ' ∉ name → ∀ (rest : List Char),
      splitKV (name ++ ' ' :: '=' :: ' ' :: rest) = some (name, rest) := by
  intro name
  induction name with
  | nil =>
    intro h rest
    simpa using splitKV_sep rest
  | cons c cs ih =>
    intro h rest
    have hc : c ≠ ' ' := by
      intro e
      apply h
      rw [e]
      exact List.mem_cons_self _ _
    simp only [List.cons_append]
    unfold splitKV
    rw [if_neg (fun hand => hc hand.1)]
    rw [ih (fun hm => h (List.mem_cons_of_mem _ hm)) rest]

/-! ### Codec round-trip lemmas -/

/-- Key round trip: the canonical text of a valid key parses back to the
same key. -/
theorem parseKey_keyText (k : WgPrivateKey) : parseKey (keyText k) = .ok k := by
  obtain ⟨s, hs⟩ := k
  have hs2 := hs
  unfold isValidKeyRaw at hs2
  rw [Bool.and_eq_true] at hs2
  obtain ⟨h1, h2⟩ := hs2
  rw [beq_iff_eq] at h1
  unfold parseKey keyText
  rw [dif_pos h1, dif_pos h2]

/-- Every character of a valid key is from the base64 alphabet. -/
theorem keyText_base64 (k : WgPrivateKey) :
    ∀ c ∈ (keyText k).data, isBase64Char c = true := by
  intro c hc
  have hs := k.property
  unfold isValidKeyRaw at hs
  rw [Bool.and_eq_true] at hs
  rw [List.all_eq_true] at hs
  exact hs.2 c hc

/-- A valid key's text contains no newline. -/
theorem noLF_keyText (k : WgPrivateKey) : '\n' ∉ (keyText k).data := by
  intro hm
  have h := keyText_base64 k '\n' hm
  exact absurd h (by decide)

/-- Octet round trip. -/
theorem parseOctet_renderNat (a : Fin 256) :
    parseOctet (renderNat a.val) = some a := by
  unfold parseOctet
  rw [parseNat_renderNat]
  simp [a.isLt]

/-- Prefix-length round trip. -/
theorem parseMask_renderNat (p : Fin 33) :
    parseMask (renderNat p.val) = some p := by
  unfold parseMask
  rw [parseNat_renderNat]
  simp [p.isLt]

/-- Characters of the `a.b.c.d` part are digits or dots. -/
theorem ipPartChars_mem (a : IpNetwork) (c : Char) (hc : c ∈ ipPartChars a) :
    c.isDigit = true ∨ c = '.' := by
  unfold ipPartChars at hc
  simp only [List.mem_append, List.mem_cons] at hc
  rcases hc with ((h | h | h) | h | h) | h | h
  · exact Or.inl (renderNat_digits _ _ h)
  · exact Or.inr h
  · exact Or.inl (renderNat_digits _ _ h)
  · exact Or.inr h
  · exact Or.inl (renderNat_digits _ _ h)
  · exact Or.inr h
  · exact Or.inl (renderNat_digits _ _ h)

/-- The slash never occurs before the prefix-length separator. -/
theorem slash_not_mem_ipPart (a : IpNetwork) : '/' ∉ ipPartChars a := by
  intro hm
  rcases ipPartChars_mem a '/' hm with h | h
  · exact absurd h (by decide)
  · exact absurd h (by decide)

/-- Splitting the `a.b.c.d` part on dots recovers the four octet texts. -/
theorem ipPart_split (a : IpNetwork) :
    splitOnChar '.' (ipPartChars a) =
      [renderNat a.o1.val, renderNat a.o2.val, renderNat a.o3.val,
       renderNat a.o4.val] := by
  unfold ipPartChars
  simp only [List.cons_append, List.append_assoc]
  rw [splitOnChar_append '.' _ _ (not_mem_renderNat '.' (by decide) _),
      splitOnChar_append '.' _ _ (not_mem_renderNat '.' (by decide) _),
      splitOnChar_append '.' _ _ (not_mem_renderNat '.' (by decide) _),
      splitOnChar_no_sep '.' _ (not_mem_renderNat '.' (by decide) _)]

/-- Address round trip: the canonical text of a network parses back to
the same network. -/
theorem parseAddr_ipText (a : IpNetwork) : parseAddr (ipText a) = some a := by
  unfold parseAddr ipText
  rw [show (String.mk (ipChars a)).data = ipChars a from rfl]
  unfold parseAddrChars ipChars
  rw [splitOnChar_append '/' _ _ (slash_not_mem_ipPart a),
      splitOnChar_no_sep '/' _ (not_mem_renderNat '/' (by decide) _)]
  dsimp only
  rw [ipPart_split]
  dsimp only
  rw [parseOctet_renderNat a.o1, parseOctet_renderNat a.o2,
      parseOctet_renderNat a.o3, parseOctet_renderNat a.o4,
      parseMask_renderNat a.prefixLen]

/-- No character of a network's canonical text is a newline. -/
theorem noLF_ipText (a : IpNetwork) : '\n' ∉ (ipText a).data := by
  intro hm
  have hm2 : '\n' ∈ ipPartChars a ++ '/' :: renderNat a.prefixLen.val := hm
  rw [List.mem_append, List.mem_cons] at hm2
  rcases hm2 with h | h | h
  · rcases ipPartChars_mem a '\n' h with h2 | h2
    · exact absurd h2 (by decide)
    · exact absurd h2 (by decide)
  · exact absurd h (by decide)
  · exact absurd (renderNat_digits _ _ h) (by decide)

/-- No character of a port's decimal text is a newline. -/
theorem noLF_natText (n : Nat) : '\n' ∉ (natText n).data :=
  not_mem_renderNat '\n' (by decide) n

/-! ### Rendered-text structure lemmas -/

/-- String concatenation concatenates the underlying character lists. -/
theorem strData_append (a b : String) : (a ++ b).data = a.data ++ b.data := rfl

/-- Rebuilding a string from its character list is the identity. -/
theorem mk_data (t : String) : String.mk t.data = t := rfl

/-- The character list of a rendered section, decomposed into the tag
line and the five field lines. -/
theorem to_string_data (s : WgInterface) :
    (WgInterface.to_string s).data =
      TAG.data ++ '\n' :: (fieldLine PRIVATE_KEY (keyText s.private_key) ++ '\n' ::
        (fieldLine ADDRESS (ipText s.address) ++ '\n' ::
          (fieldLine LISTEN_PORT (natText s.listen_port) ++ '\n' ::
            (fieldLine POST_UP s.post_up ++ '\n' ::
              (fieldLine POST_DOWN s.post_down ++ ['\n']))))) := by
  simp only [WgInterface.to_string, fieldLine, strData_append, List.append_assoc,
    List.cons_append, List.nil_append,
    show ("\n" : String).data = ['\n'] from rfl,
    show (" = " : String).data = [' ', '=', ' '] from rfl]

/-- A field line with a newline-free name and value contains no
newline. -/
theorem noLF_fieldLine (name value : String) (hn : '\n' ∉ name.data)
    (hv : '\n' ∉ value.data) : '\n' ∉ fieldLine name value := by
  intro hm
  unfold fieldLine at hm
  simp only [List.mem_append, List.mem_cons] at hm
  rcases hm with h | h | h | h | h
  · exact hn h
  · exact absurd h (by decide)
  · exact absurd h (by decide)
  · exact absurd h (by decide)
  · exact hv h

/-- The lines of a rendered section: the tag, the five field lines in
declaration order, and the empty line after the final newline. -/
theorem lines_to_string (s : WgInterface) (hu : '\n' ∉ s.post_up.data)
    (hd : '\n' ∉ s.post_down.data) :
    splitOnChar '\n' (WgInterface.to_string s).data =
      [TAG.data,
       fieldLine PRIVATE_KEY (keyText s.private_key),
       fieldLine ADDRESS (ipText s.address),
       fieldLine LISTEN_PORT (natText s.listen_port),
       fieldLine POST_UP s.post_up,
       fieldLine POST_DOWN s.post_down,
       []] := by
  rw [to_string_data]
  rw [splitOnChar_append '\n' _ _ (by decide),
      splitOnChar_append '\n' _ _
        (noLF_fieldLine _ _ (by decide) (noLF_keyText s.private_key)),
      splitOnChar_append '\n' _ _
        (noLF_fieldLine _ _ (by decide) (noLF_ipText s.address)),
      splitOnChar_append '\n' _ _
        (noLF_fieldLine _ _ (by decide) (noLF_natText s.listen_port)),
      splitOnChar_append '\n' _ _ (noLF_fieldLine _ _ (by decide) hu),
      splitOnChar_append '\n' _ _ (noLF_fieldLine _ _ (by decide) hd)]
  rfl

/-- The tag line carries no field separator. -/
theorem splitKV_TAG : splitKV TAG.data = none := by decide

/-- Re-splitting the rendered text recovers exactly the five raw fields
in declaration order, with verbatim values. -/
theorem extractFields_to_string (s : WgInterface) (hu : '\n' ∉ s.post_up.data)
    (hd : '\n' ∉ s.post_down.data) :
    extractFields (WgInterface.to_string s) =
      [(PRIVATE_KEY, keyText s.private_key), (ADDRESS, ipText s.address),
       (LISTEN_PORT, natText s.listen_port), (POST_UP, s.post_up),
       (POST_DOWN, s.post_down)] := by
  unfold extractFields
  rw [lines_to_string s hu hd]
  simp only [List.filterMap_cons, List.filterMap_nil, fieldLine, splitKV_TAG,
    splitKV_name PRIVATE_KEY.data (by decide),
    splitKV_name ADDRESS.data (by decide),
    splitKV_name LISTEN_PORT.data (by decide),
    splitKV_name POST_UP.data (by decide),
    splitKV_name POST_DOWN.data (by decide),
    show splitKV [] = none from rfl, mk_data]

/-- A rebuilt field line is the name, separator, and value as one
string. -/
theorem mk_fieldLine (n v : String) : String.mk (fieldLine n v) = n ++ " = " ++ v := by
  cases n with
  | mk nd =>
    cases v with
    | mk vd => exact congrArg String.mk (List.append_assoc nd [' ', '=', ' '] vd).symm

/-- Feeding the five recognized fields in declaration order through the
mapping constructor is the same as calling the raw-value constructor. -/
theorem from_raw_key_values_canonical (a b c d e : String) :
    from_raw_key_values
        [(PRIVATE_KEY, a), (ADDRESS, b), (LISTEN_PORT, c), (POST_UP, d),
         (POST_DOWN, e)] =
      from_raw_values a b c d e := rfl

/-! ### Claims C1 and C2 -/

/-- Claim C1, amended: for every validly constructed section whose
command strings contain no newline, splitting the rendered text back into
field lines and re-parsing through `from_raw_key_values` succeeds and
returns an equal section.  (The port bound is the `u16` range of the Rust
field; nonzero is the constructor invariant.) -/
theorem claim_C1_round_trip (s : WgInterface) (h0 : s.listen_port ≠ 0)
    (h16 : s.listen_port < 65536) (hu : '\n' ∉ s.post_up.data)
    (hd : '\n' ∉ s.post_down.data) :
    from_raw_key_values (extractFields (WgInterface.to_string s)) = .ok s := by
  rw [extractFields_to_string s hu hd, from_raw_key_values_canonical]
  unfold from_raw_values
  rw [parseKey_keyText, parseAddr_ipText, parseU16_natText _ h16]
  dsimp only
  rw [if_neg h0]

/-- Counterexample to C1 as stated: the validly constructed section `S0`,
whose `post_up` command contains a newline, does not survive the round
trip — the text after the newline is lost in the line split. -/
theorem claim_C1_counterexample :
    from_raw_key_values (extractFields (WgInterface.to_string S0)) ≠
      Except.ok S0 := by
  intro h
  rw [show from_raw_key_values (extractFields (WgInterface.to_string S0)) =
      Except.ok S1 from by rfl] at h
  injection h with h
  exact absurd h (by decide)

/-- Witness for C1 at the newline-free sample section. -/
theorem claim_C1_witness :
    from_raw_key_values (extractFields (WgInterface.to_string S2)) =
      Except.ok S2 :=
  claim_C1_round_trip S2 (by decide) (by decide) (by decide) (by decide)

/-- Claim C2, amended: for every valid section whose command strings
contain no newline, the rendered text consists of exactly the tag line,
one `Key = Value` line per field in declaration order, and the trailing
blank line; rendering is a total function. -/
theorem claim_C2_render_lines (s : WgInterface) (hu : '\n' ∉ s.post_up.data)
    (hd : '\n' ∉ s.post_down.data) :
    strLines (WgInterface.to_string s) =
      [TAG, PRIVATE_KEY ++ " = " ++ keyText s.private_key,
       ADDRESS ++ " = " ++ ipText s.address,
       LISTEN_PORT ++ " = " ++ natText s.listen_port,
       POST_UP ++ " = " ++ s.post_up,
       POST_DOWN ++ " = " ++ s.post_down, ""] := by
  unfold strLines
  rw [lines_to_string s hu hd]
  simp only [List.map_cons, List.map_nil, mk_fieldLine, mk_data,
    show String.mk [] = "" from rfl]

/-- Counterexample to C2 as stated: rendering `S0`, whose `post_up`
contains a newline, does not produce the six-line block with those exact
values — the command spills onto an extra line. -/
theorem claim_C2_counterexample :
    strLines (WgInterface.to_string S0) ≠
      [TAG, PRIVATE_KEY ++ " = " ++ keyText S0.private_key,
       ADDRESS ++ " = " ++ ipText S0.address,
       LISTEN_PORT ++ " = " ++ natText S0.listen_port,
       POST_UP ++ " = " ++ S0.post_up,
       POST_DOWN ++ " = " ++ S0.post_down, ""] := by decide

/-- Witness for C2 at the newline-free sample section. -/
theorem claim_C2_witness :
    strLines (WgInterface.to_string S2) =
      [TAG, PRIVATE_KEY ++ " = " ++ keyText S2.private_key,
       ADDRESS ++ " = " ++ ipText S2.address,
       LISTEN_PORT ++ " = " ++ natText S2.listen_port,
       POST_UP ++ " = " ++ S2.post_up,
       POST_DOWN ++ " = " ++ S2.post_down, ""] :=
  claim_C2_render_lines S2 (by decide) (by decide)
